import Mathlib

/-!
Verification development for the SlicerCaseIterator module
(`SlicerCaseIteratorLib/CsvTableIterator.py`, `IteratorBase.py`,
`IteratorFactory.py`).

The Python code is shallowly embedded: pure helpers (`os.path` functions,
`_buildPath`, the save-name disambiguation of `saveMask`) become Lean
functions; the stateful iterator (`loadCase` / `closeCase`) becomes an
explicit state-passing function over an `IterState` record, with the host
application (Slicer) modelled by oracle functions (file existence, load
results).  Python exceptions are modelled with `Except`: an exception
raised mid-way returns the state as mutated up to the raise point,
mirroring the non-transactional behaviour of the source.

String primitives are implemented over `List Char` so that all
definitions evaluate inside the kernel.
-/

namespace SlicerCaseIterator

/-! ## Character-list string primitives -/

/-- Tests whether `b` is a prefix of `a` (character-wise). -/
def startsWithL : List Char → List Char → Bool
  | _, [] => true
  | [], _ :: _ => false
  | a :: as, b :: bs => a = b && startsWithL as bs

/-- Python `str.startswith` on Lean strings. -/
def strStartsWith (s pre : String) : Bool := startsWithL s.toList pre.toList

/-- Python `str.endswith` on Lean strings. -/
def strEndsWith (s suf : String) : Bool :=
  startsWithL s.toList.reverse suf.toList.reverse

/-- Python `str.split` at one character: split a character list at every occurrence of `c`
(producing empty groups for adjacent separators, as Python does). -/
def splitOnChar (c : Char) : List Char → List (List Char)
  | [] => [[]]
  | ch :: rest =>
    let r := splitOnChar c rest
    if ch = c then [] :: r
    else
      match r with
      | [] => [[ch]]
      | g :: gs => (ch :: g) :: gs

/-- Joins a list of strings with slashes (Python `sep.join`). -/
def joinSlash : List String → String
  | [] => ""
  | [x] => x
  | x :: y :: rest => x ++ "/" ++ joinSlash (y :: rest)

/-- Index of the last occurrence of `c` in `l`, if any (`str.rfind`). -/
def lastIdxOf (c : Char) (l : List Char) : Option Nat :=
  (l.foldl
    (fun (st : Nat × Option Nat) ch =>
      (st.1 + 1, if ch = c then some st.1 else st.2))
    (0, none)).2

/-! ## POSIX path helpers (`os.path` on a POSIX host)

These embed the CPython `posixpath` implementations of `isabs`, `join`,
`normpath`, `abspath` and `splitext`, which `_buildPath`, `_loadMaskNode`
and `saveMask` call. -/

/-- Embeds `os.path.isabs` (POSIX): a path is absolute iff it starts with a slash. -/
def isabs (p : String) : Bool := strStartsWith p "/"

/-- Embeds `os.path.join a b` (POSIX, two arguments): if `b` is absolute the result
is `b`; otherwise `b` is appended to `a`, inserting a slash unless `a` is
empty or already ends in a slash. -/
def joinP (a b : String) : String :=
  if isabs b then b
  else if a = "" || strEndsWith a "/" then a ++ b
  else a ++ "/" ++ b

/-- Component loop of `posixpath.normpath`: drop empty and `.` components;
`..` pops a previous real component, is dropped at the root of an absolute
path, and is kept when there is nothing to pop in a relative path (or the
stack already holds `..`).  `acc` is the processed stack, most recent first. -/
def normAux (isAbsolute : Bool) : List String → List String → List String
  | acc, [] => acc.reverse
  | acc, c :: rest =>
    if c = "" || c = "." then normAux isAbsolute acc rest
    else if c = ".." then
      match acc with
      | [] =>
        if isAbsolute then normAux isAbsolute [] rest
        else normAux isAbsolute [".."] rest
      | t :: tl =>
        if t = ".." then normAux isAbsolute (".." :: t :: tl) rest
        else normAux isAbsolute tl rest
    else normAux isAbsolute (c :: acc) rest

/-- Embeds `posixpath.normpath`: collapse `//`, `.` and `..`.  Exactly two leading
slashes are preserved (POSIX special case), any other number collapses to
one. -/
def normpath (p : String) : String :=
  if p = "" then "."
  else
    let slashes : Nat :=
      if strStartsWith p "//" && !(strStartsWith p "///") then 2
      else if strStartsWith p "/" then 1
      else 0
    let comps := (splitOnChar '/' p.toList).map String.mk
    let stack := normAux (slashes != 0) [] comps
    let pre : String := if slashes == 2 then "//" else if slashes == 1 then "/" else ""
    let r := pre ++ joinSlash stack
    if r = "" then "." else r

/-- Embeds `os.path.abspath` with the process working directory made explicit:
a relative path is joined to `cwd`, then the result is normalised. -/
def abspath (cwd p : String) : String :=
  normpath (if isabs p then p else joinP cwd p)

/-- Embeds `posixpath.splitext`: split off the extension at the last dot, provided
that dot lies after the last slash and the file name has at least one
non-dot character before it (so dotfiles like `.bashrc` have no extension). -/
def splitext (p : String) : String × String :=
  let l := p.toList
  match lastIdxOf '.' l with
  | none => (p, "")
  | some dot =>
    let sep : Int :=
      match lastIdxOf '/' l with
      | none => -1
      | some s => (s : Int)
    if sep < (dot : Int) then
      let fnameStart := (sep + 1).toNat
      if ((l.drop fnameStart).take (dot - fnameStart)).any (fun ch => ch ≠ '.') then
        (String.mk (l.take dot), String.mk (l.drop dot))
      else (p, "")
    else (p, "")

example : normpath "/data/sub/a.nii" = "/data/sub/a.nii" := by decide
example : normpath "/a/b/../c//d/." = "/a/c/d" := by decide
example : joinP "sub" "a.nii" = "sub/a.nii" := by decide
example : joinP "" "a.nii" = "a.nii" := by decide
example : joinP "a" "/x" = "/x" := by decide
example : abspath "/cwd" "x/y" = "/cwd/x/y" := by decide
example : splitext "/d/ma.seg.nrrd" = ("/d/ma.seg", ".nrrd") := by decide
example : splitext "/d/.bashrc" = ("/d/.bashrc", "") := by decide
example : strEndsWith (splitext "/d/ma.seg.nrrd").1 ".seg" = true := by decide

/-! ## Case record and iterator state

`CaseTableIteratorLogic` keeps its per-case data in the `CaseData`
parameter of the scene-scoped parameter node, as the `str()` of a Python
dict with keys `InputImage_ID`, `InputMask_ID`, `Additional_InputImage_IDs`
and `Additional_InputMask_IDs`, read back with `ast.literal_eval` / `eval`.
`str` followed by `literal_eval` round-trips this dict of strings and
string lists, so the parameter is modelled as `Option CaseRecord`, with
`none` standing for the unset parameter (`GetParameter` returns `""`). -/

/-- The node-identifier record written by `loadCase` (the `CaseData` dict). -/
structure CaseRecord where
  imID : String
  maID : String
  addImIDs : List String
  addMaIDs : List String
  deriving DecidableEq, Repr

/-- The two events `IteratorEventListenerList` dispatches. -/
inductive EvKind
  | loaded
  | aboutToClose
  deriving DecidableEq, Repr

/-- One listener invocation: which event, which listener (by registration
index), and the `CaseData` content of the parameter node at fire time. -/
structure Ev where
  kind : EvKind
  listener : Nat
  snapshot : Option CaseRecord
  deriving DecidableEq, Repr

/-- Embeds `IteratorEventListenerList.caseLoaded` / `.caseAboutToClose`: invoke
every registered listener in registration order, passing the parameter
node (whose `CaseData` content is `snap`). -/
def fireAll (k : EvKind) (listeners : Nat) (snap : Option CaseRecord) : List Ev :=
  (List.range listeners).map (fun i => ⟨k, i, snap⟩)

/-- Mutable state of `CaseTableIteratorLogic` (plus the scene and the
trace of listener invocations). `scene` is the list of node IDs currently
present in the Slicer scene; IDs are unique. -/
structure IterState where
  currentIdx : Option Nat
  caseData : Option CaseRecord
  scene : List String
  trace : List Ev
  deriving DecidableEq, Repr

/-- Embeds `IteratorLogicBase.removeNodeByID`: look the node up by ID and remove
it if present; a missing ID is a no-op.  With unique scene IDs this is
removal of every entry equal to `id`. -/
def removeNodeByID (id : String) (scene : List String) : List String :=
  scene.filter (fun x => x ≠ id)

/-- Embeds `CaseTableIteratorLogic.closeCase`: fire `caseAboutToClose` to every
listener first; then, if the stored `CaseData` parameter is non-empty,
remove the main image node, the main mask node when its ID is non-empty,
and every additional image/mask node; finally set `currentIdx` to `None`.
The `CaseData` parameter itself is not touched. -/
def closeCase (listeners : Nat) (s : IterState) : IterState :=
  let s1 : IterState :=
    { s with trace := s.trace ++ fireAll .aboutToClose listeners s.caseData }
  let s2 : IterState :=
    match s1.caseData with
    | none => s1
    | some r =>
      let sc := removeNodeByID r.imID s1.scene
      let sc := if r.maID ≠ "" then removeNodeByID r.maID sc else sc
      let sc := r.addImIDs.foldl (fun a i => removeNodeByID i a) sc
      let sc := r.addMaIDs.foldl (fun a i => removeNodeByID i a) sc
      { s1 with scene := sc }
  { s2 with currentIdx := none }

/-! ## Column configuration and host oracles -/

/-- The resolved columns of `CaseTableIteratorLogic.caseColumns`, modelled
as row-indexed value functions.  `none` means the key was not configured
(or, for `root` / `image` / `mask`, `getColumn` stored `None`). -/
structure Columns where
  root : Option (Nat → String)
  image : Option (Nat → String)
  mask : Option (Nat → String)
  addImages : List (Nat → String)
  addMasks : List (Nat → String)

/-- The host (Slicer) behaviour visible to the iterator: the directory of
the table storage file (`csv_dir`), the working directory used by
`os.path.abspath`, `os.path.isfile`, and the three load entry points.
A load returns the new node ID on success (the node is added to the
scene) or `none` on failure.  `loadLabelToSeg` abbreviates the
labelmap branch of `_loadMaskNode` (load label volume, convert to a new
segmentation node, attach a storage node): its result is the ID of the
resulting segmentation node, or `none` when the labelmap load or its
conversion fails. -/
structure Host where
  csvDir : Option String
  cwd : String
  isFile : String → Bool
  loadVolume : String → Option String
  loadSegmentation : String → Option String
  loadLabelToSeg : String → Option String

/-- Embeds `CaseTableIteratorLogic._getColumnValue` for single-valued keys. -/
def getColumnValue (col : Option (Nat → String)) (idx : Nat) : Option String :=
  col.map (fun c => c idx)

/-- Embeds `CaseTableIteratorLogic._buildPath`: it yields `None` for a missing/empty file
name; an absolute name is returned as is; otherwise join with the case
root when configured (returning immediately if that makes the path
absolute), then with the table source directory when the table came from
a file, and normalise to an absolute path. -/
def buildPath (csvDir : Option String) (cwd : String)
    (caseRoot : Option String) (fname : Option String) : Option String :=
  match fname with
  | none => none
  | some f0 =>
    if f0 = "" then none
    else if isabs f0 then some f0
    else
      let f1 := match caseRoot with
        | some r => joinP r f0
        | none => f0
      if caseRoot.isSome && isabs f1 then some f1
      else
        let f2 := match csvDir with
          | some d => joinP d f1
          | none => f1
        some (abspath cwd f2)

/-- Embeds `CaseTableIteratorLogic._loadImageNode`: build the path, require the
file to exist, load it as a volume.  Any failure yields `none` (logged and
skipped in the source). -/
def loadImageNode (h : Host) (root fname : Option String) : Option String :=
  match buildPath h.csvDir h.cwd root fname with
  | none => none
  | some p => if !h.isFile p then none else h.loadVolume p

/-- Embeds `CaseTableIteratorLogic._loadMaskNode`: build the path, require the
file to exist; when the name minus its extension ends in `.seg` load it
directly as a segmentation, otherwise load it as a labelmap and convert
it to a segmentation (see `Host.loadLabelToSeg`).  Any failure yields
`none`. (The reference-image binding and the renaming of the node are
internal to the host node and not part of this state model.) -/
def loadMaskNode (h : Host) (root fname : Option String) : Option String :=
  match buildPath h.csvDir h.cwd root fname with
  | none => none
  | some p =>
    if !h.isFile p then none
    else if strEndsWith (splitext p).1 ".seg" then h.loadSegmentation p
    else h.loadLabelToSeg p

/-! ## loadCase -/

/-- The additional-image nodes loaded for row `i` (the
`additionalImages` loop of `loadCase`, failures skipped). -/
def addImsOf (cfg : Columns) (h : Host) (i : Nat) : List String :=
  (cfg.addImages.map
    (fun c => loadImageNode h (getColumnValue cfg.root i) (some (c i)))).filterMap id

/-- The main mask node loaded for row `i`: only attempted when the mask
column is configured (`if ma is not None`), `none` on any failure. -/
def maskNodeOf (cfg : Columns) (h : Host) (i : Nat) : Option String :=
  match getColumnValue cfg.mask i with
  | none => none
  | some mv => loadMaskNode h (getColumnValue cfg.root i) (some mv)

/-- The additional-mask nodes loaded for row `i` (the `additionalMasks`
loop of `loadCase`, failures skipped). -/
def addMasOf (cfg : Columns) (h : Host) (i : Nat) : List String :=
  (cfg.addMasks.map
    (fun c => loadMaskNode h (getColumnValue cfg.root i) (some (c i)))).filterMap id

/-- The loading body of `loadCase` (everything between the range check /
implicit close and the write of the `CaseData` parameter).  It touches
only the scene.  Following the source: the main image is mandatory
(`assert im_node is not None`); additional images, the mask and
additional masks are loaded with failures skipped; finally the `CaseData`
dict is built — and building it evaluates `ma_node.GetID()`
unconditionally, which raises `AttributeError` when no mask node was
loaded (`ma_node is None`). -/
def loadAttempt (cfg : Columns) (h : Host) (i : Nat) (s : IterState) :
    IterState × Except String CaseRecord :=
  match loadImageNode h (getColumnValue cfg.root i) (getColumnValue cfg.image i) with
  | none => (s, .error "Failed to load main image")
  | some imN =>
    ({ s with scene := s.scene ++ [imN] ++ addImsOf cfg h i
                ++ (maskNodeOf cfg h i).toList ++ addMasOf cfg h i },
     match maskNodeOf cfg h i with
     | none => .error "NoneType object has no attribute GetID"
     | some maN => .ok ⟨imN, maN, addImsOf cfg h i, addMasOf cfg h i⟩)

/-- Embeds `CaseTableIteratorLogic.loadCase`: assert `0 <= case_idx < caseCount`;
close the current case first when one is open; load the case content
(`loadAttempt`); store the record in the `CaseData` parameter, set
`currentIdx`, fire `caseLoaded` to every listener and return `True`.
An error result models the corresponding Python exception, with the
first component the state as mutated up to the raise point. -/
def loadCase (cfg : Columns) (h : Host) (listeners : Nat) (caseCount : Nat)
    (s : IterState) (idx : Int) : IterState × Except String Bool :=
  if ¬ (0 ≤ idx ∧ idx < (caseCount : Int)) then
    (s, .error "case_idx is out of range")
  else
    match loadAttempt cfg h idx.toNat
        (if s.currentIdx.isSome then closeCase listeners s else s) with
    | (s2, .error e) => (s2, .error e)
    | (s2, .ok r) =>
      ({ s2 with
          caseData := some r
          currentIdx := some idx.toNat
          trace := s2.trace ++ fireAll .loaded listeners (some r) }, .ok true)

/-! ## getCaseData

`getCaseData` works on the raw parameter string: `eval` (an external
interpreter call, modelled by the `parse` oracle) deserialises it, node
IDs are resolved with `GetNodeByID` (the `lookup` oracle, returning
`None` for unknown IDs without raising), and the whole body is wrapped in
`try/except Exception` returning `[None, None, [], []]`. -/

/-- Result shape of `getCaseData`: main image node, mask node, additional
image nodes, additional mask nodes (each looked-up node or `none`). -/
abbrev CaseNodes :=
  Option String × Option String × List (Option String) × List (Option String)

/-- The `try` body of `getCaseData`, before the `except` clause: any
deserialisation failure propagates as an error. -/
def getCaseDataTry (parse : String → Except String CaseRecord)
    (lookup : String → Option String) (param : String) : Except String CaseNodes :=
  match parse param with
  | .error e => .error e
  | .ok r =>
    .ok (lookup r.imID,
         (if r.maID ≠ "" then lookup r.maID else none),
         r.addImIDs.map lookup,
         r.addMaIDs.map lookup)

/-- Embeds `CaseTableIteratorLogic.getCaseData`: the `try` body with every
exception caught and turned into the all-empty result. -/
def getCaseData (parse : String → Except String CaseRecord)
    (lookup : String → Option String) (param : String) : CaseNodes :=
  match getCaseDataTry parse lookup param with
  | .ok v => v
  | .error _ => (none, none, [], [])

/-! ## IteratorFactory registry -/

/-- A candidate value for the widget registry: whether it passes the
`issubclass(widget, IteratorBase.IteratorWidgetBase)` check, plus an
identity tag distinguishing classes. -/
structure WidgetClass where
  isWidgetSubclass : Bool
  clsId : Nat
  deriving DecidableEq, Repr

/-- Embeds `IteratorFactory.registerIteratorWidget` over an association-list
model of the `IMPLEMENTATIONS` dict: an already-registered name is
rejected (warning logged, registry unchanged); a non-subclass widget is
rejected (warning logged, registry unchanged); otherwise the new mapping
is appended. -/
def registerIteratorWidget (impls : List (String × WidgetClass))
    (name : String) (widget : WidgetClass) : List (String × WidgetClass) :=
  if impls.any (fun p => p.1 = name) then impls
  else if !widget.isWidgetSubclass then impls
  else impls ++ [(name, widget)]

/-! ## saveMask file-name disambiguation -/

/-- The node-name part of the destination file name in
`CsvTableEventHandler.saveMask`: the node display name, suffixed with
`_<reader>` when a reader is set. -/
def maskFileName (nodeName : String) (reader : Option String) : String :=
  match reader with
  | some rd => nodeName ++ "_" ++ rd
  | none => nodeName

/-- The extensionless destination path of `saveMask`
(`os.path.join(target_dir, nodename)`). -/
def savedBase (targetDir nodeName : String) (reader : Option String) : String :=
  joinP targetDir (maskFileName nodeName reader)

/-- The `while os.path.exists(filename % idx): idx += 1` loop of
`saveMask`, searching from `k` for the first index whose parenthesised
name is free.  `taken` is the `os.path.exists` oracle; `fuel` bounds the
unbounded Python loop (it returns `none` only when the fuel runs out
before a free name is found). -/
def findFree (taken : String → Bool) (base : String) : Nat → Nat → Option Nat
  | 0, _ => none
  | fuel + 1, k =>
    if taken (base ++ "(" ++ toString k ++ ").seg.nrrd") then
      findFree taken base fuel (k + 1)
    else some k

/-- The file name chosen by `CsvTableEventHandler.saveMask`: when the base
name with the `.seg.nrrd` extension already exists and overwriting is not
requested, append `(idx)` for the first free `idx` starting from 1;
otherwise use the base name with the extension. -/
def saveMaskFilename (taken : String → Bool) (overwrite : Bool)
    (targetDir nodeName : String) (reader : Option String) (fuel : Nat) :
    Option String :=
  if taken (savedBase targetDir nodeName reader ++ ".seg.nrrd") && !overwrite then
    (findFree taken (savedBase targetDir nodeName reader) fuel 1).map
      (fun k => savedBase targetDir nodeName reader ++ "(" ++ toString k ++ ").seg.nrrd")
  else some (savedBase targetDir nodeName reader ++ ".seg.nrrd")

/-! ## Concrete environments used by witnesses and counterexamples -/

/-- A host whose table was loaded from `/data`, where every file exists
and every load succeeds. -/
def exHost : Host :=
  { csvDir := some "/data"
    cwd := "/cwd"
    isFile := fun _ => true
    loadVolume := fun _ => some "vol"
    loadSegmentation := fun _ => some "seg"
    loadLabelToSeg := fun _ => some "lseg" }

/-- A one-row configuration with a per-row root `sub`, image `im.nii` and
segmentation mask `ma.seg.nrrd`. -/
def exCfg : Columns :=
  { root := some (fun _ => "sub")
    image := some (fun _ => "im.nii")
    mask := some (fun _ => "ma.seg.nrrd")
    addImages := []
    addMasks := [] }

/-- A one-row configuration with no mask column configured. -/
def exCfgNoMask : Columns :=
  { root := none
    image := some (fun _ => "/im.nii")
    mask := none
    addImages := []
    addMasks := [] }

/-- The pristine iterator state: nothing loaded, parameter unset. -/
def s0 : IterState :=
  { currentIdx := none, caseData := none, scene := [], trace := [] }

example :
    loadCase exCfg exHost 1 1 s0 0 =
      ({ currentIdx := some 0
         caseData := some ⟨"vol", "seg", [], []⟩
         scene := ["vol", "seg"]
         trace := [⟨.loaded, 0, some ⟨"vol", "seg", [], []⟩⟩] }, .ok true) := rfl

example :
    (loadCase exCfgNoMask exHost 1 1 s0 0).2 =
      .error "NoneType object has no attribute GetID" := rfl

/-- A configuration whose mask column is set, pointing at `/ma.nii`. -/
def exCfgMaskFile : Columns :=
  { root := none
    image := some (fun _ => "/im.nii")
    mask := some (fun _ => "/ma.nii")
    addImages := []
    addMasks := [] }

/-- A host on which the mask file `/ma.nii` does not exist but everything
else loads. -/
def exHostNoMaskFile : Host :=
  { csvDir := some "/data"
    cwd := "/cwd"
    isFile := fun p => !(p == "/ma.nii")
    loadVolume := fun _ => some "vol"
    loadSegmentation := fun _ => some "seg"
    loadLabelToSeg := fun _ => some "lseg" }

/-- A host on which no file exists, so every load fails. -/
def exHostNoFiles : Host :=
  { csvDir := some "/data"
    cwd := "/cwd"
    isFile := fun _ => false
    loadVolume := fun _ => none
    loadSegmentation := fun _ => none
    loadLabelToSeg := fun _ => none }

/-- The state with case 0 of `exCfg` open (one registered listener). -/
def sOpen : IterState := (loadCase exCfg exHost 1 1 s0 0).1

/-- The state after loading case 0 of `exCfg` and closing it again. -/
def sClosed : IterState := closeCase 1 sOpen

/-- The initial `IMPLEMENTATIONS` registry of `IteratorFactory`. -/
def exRegistry : List (String × WidgetClass) :=
  [("simple_csv_iteration", ⟨true, 0⟩), ("mask_comparison", ⟨true, 1⟩)]

/-- An `os.path.exists` oracle under which `case_reader.seg.nrrd` and
`case_reader(1).seg.nrrd` in `/d` are both taken. -/
def takenTwo : String → Bool :=
  fun s => s == "/d/case_reader.seg.nrrd" || s == "/d/case_reader(1).seg.nrrd"

/-! ## Helper lemmas -/

theorem closeCase_trace (listeners : Nat) (s : IterState) :
    (closeCase listeners s).trace =
      s.trace ++ fireAll .aboutToClose listeners s.caseData := by
  obtain ⟨ci, cd, sc, tr⟩ := s
  cases cd <;> rfl

theorem closeCase_currentIdx (listeners : Nat) (s : IterState) :
    (closeCase listeners s).currentIdx = none := by
  obtain ⟨ci, cd, sc, tr⟩ := s
  cases cd <;> rfl

theorem closeCase_caseData (listeners : Nat) (s : IterState) :
    (closeCase listeners s).caseData = s.caseData := by
  obtain ⟨ci, cd, sc, tr⟩ := s
  cases cd <;> rfl

/-- The loading body touches only the scene: trace, current index and the
stored record are untouched. -/
theorem loadAttempt_frame (cfg : Columns) (h : Host) (i : Nat) (s : IterState) :
    (loadAttempt cfg h i s).1.trace = s.trace ∧
    (loadAttempt cfg h i s).1.currentIdx = s.currentIdx ∧
    (loadAttempt cfg h i s).1.caseData = s.caseData := by
  unfold loadAttempt
  cases hIm : loadImageNode h (getColumnValue cfg.root i) (getColumnValue cfg.image i) with
  | none => exact ⟨rfl, rfl, rfl⟩
  | some imN => exact ⟨rfl, rfl, rfl⟩

/-- Filtering the listener invocations of one `fireAll` down to listener
`i` leaves exactly the one invocation of listener `i` (when `i` is a
registered listener index). -/
theorem fireAll_filter (k : EvKind) (snap : Option CaseRecord) (L i : Nat) :
    (fireAll k L snap).filter (fun e => e.listener = i) =
      if i < L then [⟨k, i, snap⟩] else [] := by
  induction L with
  | zero => simp [fireAll]
  | succ n ih =>
    have hstep : fireAll k (n + 1) snap = fireAll k n snap ++ [⟨k, n, snap⟩] := by
      simp [fireAll, List.range_succ]
    rw [hstep, List.filter_append, ih]
    rcases Nat.lt_trichotomy i n with hlt | heq | hgt
    · have hd : (decide ((⟨k, n, snap⟩ : Ev).listener = i)) = false :=
        decide_eq_false (by simp; omega)
      rw [if_pos hlt, if_pos (show i < n + 1 by omega)]
      simp [List.filter, hd]
    · subst heq
      have hd : (decide ((⟨k, i, snap⟩ : Ev).listener = i)) = true :=
        decide_eq_true (by simp)
      rw [if_neg (Nat.lt_irrefl i), if_pos (Nat.lt_succ_self i)]
      simp [List.filter, hd]
    · have hd : (decide ((⟨k, n, snap⟩ : Ev).listener = i)) = false :=
        decide_eq_false (by simp; omega)
      rw [if_neg (by omega), if_neg (by omega)]
      simp [List.filter, hd]

/-- Soundness of the `while os.path.exists` search: a returned index is
free, at least the start index, and every index from the start up to it
was taken. -/
theorem findFree_sound (taken : String → Bool) (base : String) :
    ∀ fuel start k, findFree taken base fuel start = some k →
      taken (base ++ "(" ++ toString k ++ ").seg.nrrd") = false ∧
      start ≤ k ∧
      ∀ j, start ≤ j → j < k →
        taken (base ++ "(" ++ toString j ++ ").seg.nrrd") = true := by
  intro fuel
  induction fuel with
  | zero => intro start k hfind; exact Option.noConfusion hfind
  | succ n ih =>
    intro start k hfind
    unfold findFree at hfind
    by_cases ht : taken (base ++ "(" ++ toString start ++ ").seg.nrrd") = true
    · rw [if_pos ht] at hfind
      obtain ⟨h1, h2, h3⟩ := ih (start + 1) k hfind
      refine ⟨h1, by omega, fun j hj1 hj2 => ?_⟩
      rcases Nat.eq_or_lt_of_le hj1 with h | h
      · exact h ▸ ht
      · exact h3 j h hj2
    · rw [if_neg ht] at hfind
      cases hfind
      exact ⟨Bool.eq_false_iff.mpr ht, Nat.le_refl _,
        fun j hj1 hj2 => (Nat.lt_irrefl j (Nat.lt_of_lt_of_le hj2 hj1)).elim⟩

/-! ## Claim theorems -/

/-- C5: `_buildPath` returns an already-absolute filename unchanged
regardless of the configured root and the table source directory, and a
relative filename `a.nii` with root `sub` and table source directory
`/data` resolves (for any working directory) to `/data/sub/a.nii`. -/
theorem buildPath_spec :
    (∀ csvDir cwd caseRoot f, isabs f = true →
        buildPath csvDir cwd caseRoot (some f) = some f) ∧
    (∀ cwd, buildPath (some "/data") cwd (some "sub") (some "a.nii") =
        some "/data/sub/a.nii") := by
  constructor
  · intro csvDir cwd caseRoot f habs
    have hne : ¬ (f = "") := by
      intro hemp
      subst hemp
      exact absurd habs (by decide)
    unfold buildPath
    dsimp only
    rw [if_neg hne, if_pos habs]
  · intro cwd
    rfl

/-- C5 witness: evaluated at an absolute filename and at the spec's
concrete example. -/
theorem buildPath_spec_witness :
    buildPath (some "/r") "/c" (some "root") (some "/abs/x.nii") = some "/abs/x.nii" ∧
    buildPath (some "/data") "/c" (some "sub") (some "a.nii") = some "/data/sub/a.nii" :=
  ⟨buildPath_spec.1 (some "/r") "/c" (some "root") "/abs/x.nii" (by decide),
   buildPath_spec.2 "/c"⟩

/-- C3: `loadCase` on an index outside `[0, caseCount)` fails with the
out-of-range error and returns the state completely unchanged: no close,
no event, no mutation. -/
theorem loadCase_out_of_range (cfg : Columns) (h : Host)
    (listeners caseCount : Nat) (s : IterState) (idx : Int)
    (hout : idx < 0 ∨ (caseCount : Int) ≤ idx) :
    loadCase cfg h listeners caseCount s idx =
      (s, .error "case_idx is out of range") := by
  have hcond : ¬ (0 ≤ idx ∧ idx < (caseCount : Int)) := by omega
  unfold loadCase
  rw [if_pos hcond]

/-- C3 witness: index 2 on a one-case batch fails and leaves the pristine
state untouched. -/
theorem loadCase_out_of_range_witness :
    loadCase exCfg exHost 1 1 s0 2 = (s0, .error "case_idx is out of range") :=
  loadCase_out_of_range exCfg exHost 1 1 s0 2 (Or.inr (by decide))

/-- C4: whenever `loadCase` is called while a case is open and succeeds,
the trace grows by exactly one `caseAboutToClose` dispatch (one
invocation per registered listener) followed by the new case's
`caseLoaded` dispatch; filtering the close dispatch down to any single
registered listener leaves exactly one invocation. -/
theorem loadCase_fires_close_before_loaded (cfg : Columns) (h : Host)
    (listeners caseCount : Nat) (s s' : IterState) (idx : Int) (b : Bool)
    (hopen : s.currentIdx.isSome = true)
    (hok : loadCase cfg h listeners caseCount s idx = (s', .ok b)) :
    ∃ r : CaseRecord,
      s'.trace =
        s.trace ++ fireAll .aboutToClose listeners s.caseData
          ++ fireAll .loaded listeners (some r) ∧
      ∀ i, i < listeners →
        ((fireAll .aboutToClose listeners s.caseData).filter
            (fun e => e.listener = i)).length = 1 := by
  by_cases hrange : 0 ≤ idx ∧ idx < (caseCount : Int)
  · unfold loadCase at hok
    rw [if_neg (not_not_intro hrange), if_pos hopen] at hok
    cases hla : loadAttempt cfg h idx.toNat (closeCase listeners s) with
    | mk s2 res =>
      rw [hla] at hok
      cases res with
      | error e => exact Except.noConfusion (congrArg Prod.snd hok)
      | ok r =>
        have hs' :
            ({ s2 with
                caseData := some r
                currentIdx := some idx.toNat
                trace := s2.trace ++ fireAll .loaded listeners (some r) } : IterState)
              = s' := congrArg Prod.fst hok
        refine ⟨r, ?_, ?_⟩
        · rw [← hs']
          show s2.trace ++ fireAll .loaded listeners (some r) = _
          have htr : s2.trace = (closeCase listeners s).trace := by
            have hfr := (loadAttempt_frame cfg h idx.toNat (closeCase listeners s)).1
            rw [hla] at hfr
            exact hfr
          rw [htr, closeCase_trace]
        · intro i hi
          rw [fireAll_filter, if_pos hi]
          rfl
  · unfold loadCase at hok
    rw [if_pos hrange] at hok
    exact Except.noConfusion (congrArg Prod.snd hok)

/-- C4 witness: loading case 0 again while case 0 of `exCfg` is open, with
one registered listener. -/
theorem loadCase_fires_close_before_loaded_witness :
    ∃ r : CaseRecord,
      (loadCase exCfg exHost 1 1 sOpen 0).1.trace =
        sOpen.trace ++ fireAll .aboutToClose 1 sOpen.caseData
          ++ fireAll .loaded 1 (some r) ∧
      ∀ i, i < 1 →
        ((fireAll .aboutToClose 1 sOpen.caseData).filter
            (fun e => e.listener = i)).length = 1 :=
  loadCase_fires_close_before_loaded exCfg exHost 1 1 sOpen
    (loadCase exCfg exHost 1 1 sOpen 0).1 0 true rfl rfl

/-- C10: a `loadCase` on a valid index while a case is open, whose
mandatory main image fails to load, is not atomic: the resulting state is
exactly the closed state — the `caseAboutToClose` dispatch has fired, the
previous case's nodes are removed, and `currentIdx` is `none` — and the
call fails with the main-image error. -/
theorem loadCase_main_image_failure_not_atomic (cfg : Columns) (h : Host)
    (listeners caseCount : Nat) (s : IterState) (idx : Int)
    (hopen : s.currentIdx.isSome = true)
    (hin : 0 ≤ idx ∧ idx < (caseCount : Int))
    (hfail : loadImageNode h (getColumnValue cfg.root idx.toNat)
        (getColumnValue cfg.image idx.toNat) = none) :
    loadCase cfg h listeners caseCount s idx =
      (closeCase listeners s, .error "Failed to load main image") ∧
    (closeCase listeners s).currentIdx = none ∧
    (closeCase listeners s).trace =
      s.trace ++ fireAll .aboutToClose listeners s.caseData := by
  refine ⟨?_, closeCase_currentIdx _ _, closeCase_trace _ _⟩
  unfold loadCase
  rw [if_neg (not_not_intro hin), if_pos hopen]
  unfold loadAttempt
  rw [hfail]

/-- C10 witness: case 0 open, every file missing on the host — the failed
reload leaves the iterator with no case open. -/
theorem loadCase_main_image_failure_not_atomic_witness :
    loadCase exCfg exHostNoFiles 1 1 sOpen 0 =
      (closeCase 1 sOpen, .error "Failed to load main image") ∧
    (closeCase 1 sOpen).currentIdx = none ∧
    (closeCase 1 sOpen).trace =
      sOpen.trace ++ fireAll .aboutToClose 1 sOpen.caseData :=
  loadCase_main_image_failure_not_atomic exCfg exHostNoFiles 1 1 sOpen 0
    rfl (by decide) rfl

/-- Removing an ID removes it from the scene. -/
theorem removeNodeByID_not_mem (id : String) (sc : List String) :
    id ∉ removeNodeByID id sc := by
  intro hmem
  rw [removeNodeByID, List.mem_filter] at hmem
  simp at hmem

/-- Removal never adds an ID to the scene. -/
theorem removeNodeByID_mono (x id : String) (sc : List String)
    (hx : x ∉ sc) : x ∉ removeNodeByID id sc := by
  intro hmem
  exact hx (List.mem_filter.mp hmem).1

/-- An ID absent from the scene stays absent through a removal loop. -/
theorem foldl_remove_keeps_absent (x : String) :
    ∀ (ids sc : List String), x ∉ sc →
      x ∉ ids.foldl (fun a i => removeNodeByID i a) sc := by
  intro ids
  induction ids with
  | nil => intro sc hx; exact hx
  | cons i is ih => intro sc hx; exact ih _ (removeNodeByID_mono x i sc hx)

/-- A removal loop removes every ID of its list from the scene. -/
theorem foldl_remove_removes (x : String) :
    ∀ (ids sc : List String), x ∈ ids →
      x ∉ ids.foldl (fun a i => removeNodeByID i a) sc := by
  intro ids
  induction ids with
  | nil => intro sc hx; exact absurd hx (List.not_mem_nil x)
  | cons i is ih =>
    intro sc hx
    rcases List.mem_cons.mp hx with rfl | hmem
    · exact foldl_remove_keeps_absent x is _ (removeNodeByID_not_mem x sc)
    · exact ih _ hmem

/-- When the stored record is present, `closeCase` removes every recorded
node from the scene: the main image, the main mask when its ID is
non-empty, and every additional image/mask. -/
theorem closeCase_removes_recorded (listeners : Nat) (t : IterState)
    (r : CaseRecord) (hrec : t.caseData = some r) :
    r.imID ∉ (closeCase listeners t).scene ∧
    (r.maID ≠ "" → r.maID ∉ (closeCase listeners t).scene) ∧
    (∀ n, n ∈ r.addImIDs → n ∉ (closeCase listeners t).scene) ∧
    (∀ n, n ∈ r.addMaIDs → n ∉ (closeCase listeners t).scene) := by
  obtain ⟨ci, cd, sc, tr⟩ := t
  cases hrec
  have hscene : (closeCase listeners ⟨ci, some r, sc, tr⟩).scene =
      r.addMaIDs.foldl (fun a i => removeNodeByID i a)
        (r.addImIDs.foldl (fun a i => removeNodeByID i a)
          (if r.maID ≠ "" then removeNodeByID r.maID (removeNodeByID r.imID sc)
           else removeNodeByID r.imID sc)) := rfl
  rw [hscene]
  refine ⟨?_, ?_, ?_, ?_⟩
  · apply foldl_remove_keeps_absent
    apply foldl_remove_keeps_absent
    split
    · exact removeNodeByID_mono _ _ _ (removeNodeByID_not_mem _ _)
    · exact removeNodeByID_not_mem _ _
  · intro hma
    apply foldl_remove_keeps_absent
    apply foldl_remove_keeps_absent
    rw [if_pos hma]
    exact removeNodeByID_not_mem _ _
  · intro n hn
    apply foldl_remove_keeps_absent
    exact foldl_remove_removes n r.addImIDs _ hn
  · intro n hn
    exact foldl_remove_removes n r.addMaIDs _ hn

/-- A successful loading body determines the produced record: its fields
are exactly the main image node, the mask node and the additional node
lists loaded for row `i`. -/
theorem loadAttempt_ok (cfg : Columns) (h : Host) (i : Nat)
    (s s2 : IterState) (r : CaseRecord)
    (hla : loadAttempt cfg h i s = (s2, .ok r)) :
    loadImageNode h (getColumnValue cfg.root i) (getColumnValue cfg.image i) =
        some r.imID ∧
    maskNodeOf cfg h i = some r.maID ∧
    r.addImIDs = addImsOf cfg h i ∧
    r.addMaIDs = addMasOf cfg h i := by
  unfold loadAttempt at hla
  cases hIm : loadImageNode h (getColumnValue cfg.root i) (getColumnValue cfg.image i) with
  | none =>
    rw [hIm] at hla
    exact Except.noConfusion (congrArg Prod.snd hla)
  | some imN =>
    rw [hIm] at hla
    cases hMa : maskNodeOf cfg h i with
    | none =>
      rw [hMa] at hla
      exact Except.noConfusion (congrArg Prod.snd hla)
    | some maN =>
      rw [hMa] at hla
      have hinj : (Except.ok ⟨imN, maN, addImsOf cfg h i, addMasOf cfg h i⟩
            : Except String CaseRecord) = Except.ok r := congrArg Prod.snd hla
      cases hinj
      exact ⟨rfl, rfl, rfl, rfl⟩

/-- C2 counterexample: load case 0 of `exCfg` and close it — after
`closeCase` returns, the case is closed but the stored record is still
the full record of the closed case, not empty: `closeCase` never writes
the `CaseData` parameter. -/
theorem closeCase_retains_record_cex :
    sClosed.currentIdx = none ∧
    sClosed.caseData = some ⟨"vol", "seg", [], []⟩ := ⟨rfl, rfl⟩

/-- C2 amended: every successful `loadCase` overwrites the stored case
record with exactly the loaded case's record — the main image node it
loaded, the mask node it loaded, and the additional image/mask node
lists of that row; `closeCase` removes the recorded nodes from the
scene and resets `currentIdx` to `none`, but leaves the stored record in
place (it does not clear it). -/
theorem loadCase_overwrites_record_closeCase_keeps_it (cfg : Columns)
    (h : Host) (listeners caseCount : Nat) (s : IterState) (idx : Int) (b : Bool)
    (hok : (loadCase cfg h listeners caseCount s idx).2 = .ok b) :
    (∃ imN maN,
      loadImageNode h (getColumnValue cfg.root idx.toNat)
          (getColumnValue cfg.image idx.toNat) = some imN ∧
      maskNodeOf cfg h idx.toNat = some maN ∧
      (loadCase cfg h listeners caseCount s idx).1.caseData =
        some ⟨imN, maN, addImsOf cfg h idx.toNat, addMasOf cfg h idx.toNat⟩) ∧
    (∀ t : IterState, (closeCase listeners t).caseData = t.caseData ∧
        (closeCase listeners t).currentIdx = none) ∧
    (∀ (t : IterState) (r : CaseRecord), t.caseData = some r →
        r.imID ∉ (closeCase listeners t).scene ∧
        (r.maID ≠ "" → r.maID ∉ (closeCase listeners t).scene) ∧
        (∀ n, n ∈ r.addImIDs → n ∉ (closeCase listeners t).scene) ∧
        (∀ n, n ∈ r.addMaIDs → n ∉ (closeCase listeners t).scene)) := by
  refine ⟨?_, fun t => ⟨closeCase_caseData _ _, closeCase_currentIdx _ _⟩,
    fun t r hrec => closeCase_removes_recorded listeners t r hrec⟩
  by_cases hrange : 0 ≤ idx ∧ idx < (caseCount : Int)
  · unfold loadCase at hok ⊢
    rw [if_neg (not_not_intro hrange)] at hok ⊢
    cases hla : loadAttempt cfg h idx.toNat
        (if s.currentIdx.isSome then closeCase listeners s else s) with
    | mk s2 res =>
      rw [hla] at hok
      cases res with
      | error e => exact Except.noConfusion hok
      | ok r =>
        obtain ⟨h1, h2, h3, h4⟩ := loadAttempt_ok cfg h idx.toNat _ s2 r hla
        refine ⟨r.imID, r.maID, h1, h2, ?_⟩
        rw [← h3, ← h4]
  · unfold loadCase at hok
    rw [if_pos hrange] at hok
    exact Except.noConfusion hok

/-- C2 amended witness: a concrete successful load pins the stored record
to the loaded nodes, and closing the open case keeps the record, resets
the index and removes the recorded main image from the scene. -/
theorem loadCase_overwrites_record_closeCase_keeps_it_witness :
    (∃ imN maN,
      loadImageNode exHost (getColumnValue exCfg.root 0)
          (getColumnValue exCfg.image 0) = some imN ∧
      maskNodeOf exCfg exHost 0 = some maN ∧
      (loadCase exCfg exHost 1 1 s0 0).1.caseData =
        some ⟨imN, maN, addImsOf exCfg exHost 0, addMasOf exCfg exHost 0⟩) ∧
    ((closeCase 1 sOpen).caseData = sOpen.caseData ∧
      (closeCase 1 sOpen).currentIdx = none) ∧
    "vol" ∉ (closeCase 1 sOpen).scene :=
  have hthm := loadCase_overwrites_record_closeCase_keeps_it exCfg exHost 1 1 s0 0 true rfl
  ⟨hthm.1, hthm.2.1 sOpen, (hthm.2.2 sOpen ⟨"vol", "seg", [], []⟩ rfl).1⟩

/-- C6 counterexample: in the state reached by closing case 0 no case is
open, yet a further `closeCase` invokes the listener with the retained
previous record — not with an empty one. -/
theorem closeCase_idle_stale_snapshot_cex :
    sClosed.currentIdx = none ∧
    (closeCase 1 sClosed).trace =
      sClosed.trace ++ [⟨.aboutToClose, 0, some ⟨"vol", "seg", [], []⟩⟩] :=
  ⟨rfl, rfl⟩

/-- C6 amended: `closeCase` with no case open raises no error; when
additionally no record is stored (no case was ever loaded) its only
effect is invoking every listener once with the empty record — scene and
`currentIdx` are untouched.  (After a previous case was closed the
listeners instead receive that case's retained record, since `closeCase`
does not clear it.) -/
theorem closeCase_idle_noop (listeners : Nat) (s : IterState)
    (h1 : s.currentIdx = none) (h2 : s.caseData = none) :
    closeCase listeners s =
      { s with trace := s.trace ++ fireAll .aboutToClose listeners none } := by
  obtain ⟨ci, cd, sc, tr⟩ := s
  cases h1
  cases h2
  rfl

/-- C6 amended witness: `closeCase` on the pristine state with one
registered listener. -/
theorem closeCase_idle_noop_witness :
    closeCase 1 s0 = { s0 with trace := [⟨.aboutToClose, 0, none⟩] } :=
  closeCase_idle_noop 1 s0 rfl rfl

/-- C1 (code bug, evaluated): on a row with no mask configured — or with
a configured mask whose file is missing — `loadCase` does not complete:
building the `CaseData` dict evaluates `ma_node.GetID()` on `None` and
raises `AttributeError`, so no record is stored, `currentIdx` stays
unset and no `caseLoaded` event fires. -/
theorem loadCase_optional_mask_raises :
    (loadCase exCfgNoMask exHost 1 1 s0 0).2 =
      .error "NoneType object has no attribute GetID" ∧
    (loadCase exCfgNoMask exHost 1 1 s0 0).1.currentIdx = none ∧
    (loadCase exCfgNoMask exHost 1 1 s0 0).1.caseData = none ∧
    (loadCase exCfgNoMask exHost 1 1 s0 0).1.trace = [] ∧
    (loadCase exCfgMaskFile exHostNoMaskFile 1 1 s0 0).2 =
      .error "NoneType object has no attribute GetID" :=
  ⟨rfl, rfl, rfl, rfl, rfl⟩

/-- C7: with overwrite not requested, a free base name is used with the
`.seg.nrrd` extension and no suffix; when the base name is taken, the
saved name carries the parenthesised index found by the search loop,
which is the first free index at or above 1: it is itself free and every
smaller index from 1 up is taken. -/
theorem saveMask_disambiguation (taken : String → Bool)
    (targetDir nodeName : String) (reader : Option String) (fuel k : Nat) :
    (taken (savedBase targetDir nodeName reader ++ ".seg.nrrd") = false →
      saveMaskFilename taken false targetDir nodeName reader fuel =
        some (savedBase targetDir nodeName reader ++ ".seg.nrrd")) ∧
    (taken (savedBase targetDir nodeName reader ++ ".seg.nrrd") = true →
      findFree taken (savedBase targetDir nodeName reader) fuel 1 = some k →
      saveMaskFilename taken false targetDir nodeName reader fuel =
          some (savedBase targetDir nodeName reader
            ++ "(" ++ toString k ++ ").seg.nrrd") ∧
        taken (savedBase targetDir nodeName reader
            ++ "(" ++ toString k ++ ").seg.nrrd") = false ∧
        1 ≤ k ∧
        ∀ j, 1 ≤ j → j < k →
          taken (savedBase targetDir nodeName reader
            ++ "(" ++ toString j ++ ").seg.nrrd") = true) := by
  constructor
  · intro hfree
    unfold saveMaskFilename
    rw [hfree]
    rfl
  · intro htaken hfind
    obtain ⟨h1, h2, h3⟩ :=
      findFree_sound taken (savedBase targetDir nodeName reader) fuel 1 k hfind
    refine ⟨?_, h1, h2, h3⟩
    unfold saveMaskFilename
    rw [htaken, hfind]
    rfl

/-- C7 witness: with `case_reader.seg.nrrd` and `case_reader(1).seg.nrrd`
taken the save goes to `case_reader(2).seg.nrrd`; with nothing taken it
goes to `case_reader.seg.nrrd`. -/
theorem saveMask_disambiguation_witness :
    saveMaskFilename takenTwo false "/d" "case" (some "reader") 3 =
      some "/d/case_reader(2).seg.nrrd" ∧
    saveMaskFilename (fun _ => false) false "/d" "case" (some "reader") 3 =
      some "/d/case_reader.seg.nrrd" :=
  ⟨((saveMask_disambiguation takenTwo "/d" "case" (some "reader") 3 2).2
      (by decide) (by decide)).1,
   (saveMask_disambiguation (fun _ => false) "/d" "case" (some "reader") 3 0).1 rfl⟩

/-- C8: `getCaseData` never propagates an error: either the `try` body
succeeds and its result is returned, or the body fails and the all-empty
result (no image, no mask, empty lists) is returned instead. -/
theorem getCaseData_never_raises (parse : String → Except String CaseRecord)
    (lookup : String → Option String) (param : String) :
    (∃ v, getCaseDataTry parse lookup param = .ok v ∧
        getCaseData parse lookup param = v) ∨
    ((∃ e, getCaseDataTry parse lookup param = .error e) ∧
      getCaseData parse lookup param = (none, none, [], [])) := by
  cases htry : getCaseDataTry parse lookup param with
  | ok v =>
    left
    refine ⟨v, rfl, ?_⟩
    unfold getCaseData
    rw [htry]
  | error e =>
    right
    refine ⟨⟨e, rfl⟩, ?_⟩
    unfold getCaseData
    rw [htry]

/-- C9: registering under an already-used name, or registering a widget
that is not a subclass of `IteratorWidgetBase`, leaves the registry — and
hence the original mapping — unchanged. -/
theorem registerIteratorWidget_rejects (impls : List (String × WidgetClass))
    (name : String) (widget : WidgetClass) :
    (impls.any (fun p => p.1 = name) = true →
      registerIteratorWidget impls name widget = impls) ∧
    (widget.isWidgetSubclass = false →
      registerIteratorWidget impls name widget = impls) := by
  constructor
  · intro hdup
    unfold registerIteratorWidget
    rw [hdup]
    rfl
  · intro hsub
    unfold registerIteratorWidget
    rw [hsub]
    simp

/-- C9 witness: the stock registry rejects a duplicate of
`simple_csv_iteration` and rejects a non-subclass candidate. -/
theorem registerIteratorWidget_rejects_witness :
    registerIteratorWidget exRegistry "simple_csv_iteration" ⟨true, 2⟩ = exRegistry ∧
    registerIteratorWidget exRegistry "new_mode" ⟨false, 3⟩ = exRegistry :=
  ⟨(registerIteratorWidget_rejects exRegistry "simple_csv_iteration" ⟨true, 2⟩).1
      (by decide),
   (registerIteratorWidget_rejects exRegistry "new_mode" ⟨false, 3⟩).2 rfl⟩

end SlicerCaseIterator
